import Mathlib

/-!
Shallow embedding of the HanyaMusic API layer (`ITunesAPI.py`, `LastFM.py`)
and a verification of its aggregation, chart-parsing and HTTP-gateway
behaviour.  Pure string/list manipulation is embedded directly; the
network is modelled by passing the decoded payloads (or fetch outcomes)
as explicit arguments, and Python exceptions are modelled with `Except`.
-/

namespace HanyaMusic

/-! ### Python string primitives -/

/-- Lexicographic strict comparison of character lists by code point:
the order Python uses to compare `str` values. -/
def lexLt : List Char → List Char → Bool
  | [], [] => false
  | [], _ :: _ => true
  | _ :: _, [] => false
  | a :: as, b :: bs =>
    if a.toNat < b.toNat then true
    else if b.toNat < a.toNat then false
    else lexLt as bs

/-- Python string comparison `a < b`. -/
def ltStr (a b : String) : Bool := lexLt a.data b.data

theorem lexLt_asymm : ∀ a b, lexLt a b = true → lexLt b a = false
  | [], [] => by simp [lexLt]
  | [], _ :: _ => by simp [lexLt]
  | _ :: _, [] => by simp [lexLt]
  | a :: as, b :: bs => by
    simp only [lexLt]
    by_cases h1 : a.toNat < b.toNat
    · have h2 : ¬ b.toNat < a.toNat := by omega
      simp [h1, h2]
    · by_cases h2 : b.toNat < a.toNat
      · simp [h1, h2]
      · simp only [h1, h2, if_false]
        exact lexLt_asymm as bs

theorem lexLt_nil_right : ∀ b : List Char, lexLt b [] = false
  | [] => rfl
  | _ :: _ => rfl

theorem lexLt_trans : ∀ a b c, lexLt a b = true → lexLt b c = true → lexLt a c = true
  | [], b, [], _, h2 => by rw [lexLt_nil_right b] at h2; cases h2
  | [], [], _ :: _, h1, _ => by cases h1
  | [], _ :: _, _ :: _, _, _ => by simp [lexLt]
  | _ :: _, [], _, h1, _ => by cases h1
  | _ :: _, _ :: _, [], _, h2 => by cases h2
  | a :: as, b :: bs, c :: cs, h1, h2 => by
    simp only [lexLt] at h1 h2 ⊢
    by_cases hab : a.toNat < b.toNat
    · by_cases hbc : b.toNat < c.toNat
      · have hac : a.toNat < c.toNat := by omega
        simp [hac]
      · by_cases hcb : c.toNat < b.toNat
        · simp [hbc, hcb] at h2
        · have hac : a.toNat < c.toNat := by omega
          simp [hac]
    · by_cases hba : b.toNat < a.toNat
      · simp [hab, hba] at h1
      · have hab' : a.toNat = b.toNat := by omega
        by_cases hbc : b.toNat < c.toNat
        · have hac : a.toNat < c.toNat := by omega
          simp [hac]
        · by_cases hcb : c.toNat < b.toNat
          · simp [hbc, hcb] at h2
          · have hac : ¬ a.toNat < c.toNat := by omega
            have hca : ¬ c.toNat < a.toNat := by omega
            simp only [hab, hba, if_false] at h1
            simp only [hbc, hcb, if_false] at h2
            simp only [hac, hca, if_false]
            exact lexLt_trans as bs cs h1 h2

theorem lexLt_nlt_trans : ∀ a b c, lexLt a b = false → lexLt b c = false → lexLt a c = false
  | [], [], c, _, h2 => h2
  | [], _ :: _, _, h1, _ => by simp [lexLt] at h1
  | _ :: _, [], [], _, _ => by simp [lexLt]
  | _ :: _, [], _ :: _, _, h2 => by simp [lexLt] at h2
  | _ :: _, _ :: _, [], _, _ => by simp [lexLt]
  | a :: as, b :: bs, c :: cs, h1, h2 => by
    simp only [lexLt] at h1 h2 ⊢
    by_cases hab : a.toNat < b.toNat
    · simp [hab] at h1
    · by_cases hbc : b.toNat < c.toNat
      · simp [hbc] at h2
      · by_cases hac : a.toNat < c.toNat
        · by_cases hba : b.toNat < a.toNat
          · have : b.toNat < c.toNat := by omega
            exact absurd this hbc
          · have : b.toNat < c.toNat := by omega
            exact absurd this hbc
        · by_cases hca : c.toNat < a.toNat
          · simp [hac, hca]
          · have hba : ¬ b.toNat < a.toNat := by omega
            have hcb : ¬ c.toNat < b.toNat := by omega
            simp only [hab, hba, if_false] at h1
            simp only [hbc, hcb, if_false] at h2
            simp only [hac, hca, if_false]
            exact lexLt_nlt_trans as bs cs h1 h2

theorem ltStr_asymm {a b : String} (h : ltStr a b = true) : ltStr b a = false :=
  lexLt_asymm a.data b.data h

theorem ltStr_trans {a b c : String} (h1 : ltStr a b = true) (h2 : ltStr b c = true) :
    ltStr a c = true :=
  lexLt_trans a.data b.data c.data h1 h2

theorem ltStr_nlt_trans {a b c : String} (h1 : ltStr a b = false) (h2 : ltStr b c = false) :
    ltStr a c = false :=
  lexLt_nlt_trans a.data b.data c.data h1 h2

/-- Python substring test `pat in s`, on character lists. -/
def hasSubList (pat : List Char) : List Char → Bool
  | [] => pat.isEmpty
  | c :: cs => pat.isPrefixOf (c :: cs) || hasSubList pat cs

/-- Python substring test `pat in s`. -/
def hasSub (s pat : String) : Bool := hasSubList pat.data s.data

/-- Replacement core of Python `str.replace`: scan left to right, replace every
non-overlapping occurrence of `pat` by `rep`, resume after the replaced text.
The fuel argument is initialised to the length of the subject, which suffices
because every recursive step consumes at least one subject character. -/
def replaceAllAux (pat rep : List Char) : Nat → List Char → List Char
  | 0, s => s
  | _ + 1, [] => []
  | fuel + 1, c :: cs =>
    if pat ≠ [] ∧ pat.isPrefixOf (c :: cs) = true then
      rep ++ replaceAllAux pat rep fuel (List.drop pat.length (c :: cs))
    else
      c :: replaceAllAux pat rep fuel cs

/-- Python `s.replace(pat, rep)` (all occurrences). -/
def pyReplace (s pat rep : String) : String :=
  ⟨replaceAllAux pat.data rep.data s.data.length s.data⟩

theorem isPrefixOf_append_self : ∀ (p t : List Char), p.isPrefixOf (p ++ t) = true
  | [], t => by cases t <;> rfl
  | a :: as, t => by
    show ((a == a) && as.isPrefixOf (as ++ t)) = true
    rw [isPrefixOf_append_self as t]
    simp

theorem hasSubList_append_self (p t : List Char) : hasSubList p (p ++ t) = true := by
  cases p with
  | nil =>
    cases t with
    | nil => rfl
    | cons c cs => rfl
  | cons a as =>
    show ((a :: as).isPrefixOf ((a :: as) ++ t) || hasSubList (a :: as) (as ++ t)) = true
    rw [isPrefixOf_append_self]
    rfl

theorem replaceAllAux_of_not_sub (pat rep : List Char) :
    ∀ (n : Nat) (s : List Char), hasSubList pat s = false → replaceAllAux pat rep n s = s := by
  intro n
  induction n with
  | zero => intro s _; rfl
  | succ m ih =>
    intro s hs
    cases s with
    | nil => rfl
    | cons c cs =>
      simp only [hasSubList, Bool.or_eq_false_iff] at hs
      simp only [replaceAllAux]
      rw [if_neg]
      · rw [ih cs hs.2]
      · intro hcontra
        rw [hs.1] at hcontra
        exact absurd hcontra.2 (by simp)

theorem replaceAllAux_contains_rep (pat rep : List Char) (hne : pat ≠ []) :
    ∀ (n : Nat) (s : List Char), s.length ≤ n → hasSubList pat s = true →
      hasSubList rep (replaceAllAux pat rep n s) = true := by
  intro n
  induction n with
  | zero =>
    intro s hlen hs
    have : s = [] := List.eq_nil_of_length_eq_zero (Nat.le_zero.mp hlen)
    subst this
    simp [hasSubList] at hs
    exact absurd hs hne
  | succ m ih =>
    intro s hlen hs
    cases s with
    | nil =>
      simp [hasSubList] at hs
      exact absurd hs hne
    | cons c cs =>
      simp only [replaceAllAux]
      by_cases hp : pat.isPrefixOf (c :: cs) = true
      · rw [if_pos ⟨hne, hp⟩]
        exact hasSubList_append_self rep _
      · rw [if_neg (by intro hcontra; exact hp hcontra.2)]
        simp only [hasSubList, Bool.or_eq_true]
        right
        simp only [hasSubList, Bool.or_eq_true] at hs
        rcases hs with hs | hs
        · exact absurd hs hp
        · exact ih cs (by simpa using Nat.le_of_succ_le_succ hlen) hs

theorem pyReplace_of_not_sub (s pat rep : String)
    (h : hasSub s pat = false) : pyReplace s pat rep = s := by
  unfold pyReplace
  rw [replaceAllAux_of_not_sub pat.data rep.data _ s.data h]

theorem pyReplace_contains_rep (s pat rep : String) (hne : pat.data ≠ [])
    (h : hasSub s pat = true) : hasSub (pyReplace s pat rep) rep = true := by
  unfold pyReplace hasSub
  exact replaceAllAux_contains_rep pat.data rep.data hne _ s.data (Nat.le_refl _) h

/-- Join a list of segments, placing `sep` between consecutive segments:
`joinParts sep [p0, p1, …, pn] = p0 ++ sep ++ p1 ++ sep ++ … ++ sep ++ pn`.
Used to state what `str.replace` does: the subject splits into
occurrence-free segments joined by the pattern, and the result is the
same segments joined by the replacement — replacement in place with no
other change. -/
def joinParts (sep : List Char) : List (List Char) → List Char
  | [] => []
  | [p] => p
  | p :: q :: ps => p ++ sep ++ joinParts sep (q :: ps)

theorem isPrefixOf_append_of : ∀ (l m x : List Char),
    l.isPrefixOf m = true → l.isPrefixOf (m ++ x) = true
  | [], m, x, _ => by
    cases m with
    | nil => cases x <;> rfl
    | cons b bs => rfl
  | a :: as, [], x, h => Bool.noConfusion h
  | a :: as, b :: bs, x, h => by
    show ((a == b) && as.isPrefixOf (bs ++ x)) = true
    have h' : ((a == b) && as.isPrefixOf bs) = true := h
    simp only [Bool.and_eq_true] at h'
    obtain ⟨h1, h2⟩ := h'
    rw [h1, isPrefixOf_append_of as bs x h2]
    rfl

theorem eq_append_drop_of_isPrefixOf : ∀ (l s : List Char),
    l.isPrefixOf s = true → s = l ++ List.drop l.length s
  | [], s, _ => by simp
  | a :: as, [], h => Bool.noConfusion h
  | a :: as, b :: bs, h => by
    have h' : ((a == b) && as.isPrefixOf bs) = true := h
    simp only [Bool.and_eq_true] at h'
    obtain ⟨h1, h2⟩ := h'
    have hab : a = b := by simpa using h1
    subst hab
    show a :: bs = a :: (as ++ List.drop as.length bs)
    rw [← eq_append_drop_of_isPrefixOf as bs h2]

/-- Structural characterization of the replacement scan: the subject
splits into pattern-free segments separated by the pattern's
(leftmost, non-overlapping) occurrences, and the output is exactly the
same segments separated by the replacement. -/
theorem replaceAllAux_parts (pat rep : List Char) (hne : pat ≠ []) :
    ∀ (n : Nat) (s : List Char), s.length ≤ n →
      ∃ parts : List (List Char), parts ≠ [] ∧
        (∀ p ∈ parts, hasSubList pat p = false) ∧
        s = joinParts pat parts ∧
        replaceAllAux pat rep n s = joinParts rep parts := by
  have hpatfree : hasSubList pat [] = false := by
    cases pat with
    | nil => exact absurd rfl hne
    | cons _ _ => rfl
  intro n
  induction n with
  | zero =>
    intro s hlen
    have hs : s = [] := List.eq_nil_of_length_eq_zero (Nat.le_zero.mp hlen)
    subst hs
    refine ⟨[[]], by simp, ?_, rfl, rfl⟩
    intro p hp
    rcases List.mem_singleton.mp hp with rfl
    exact hpatfree
  | succ m ih =>
    intro s hlen
    cases s with
    | nil =>
      refine ⟨[[]], by simp, ?_, rfl, rfl⟩
      intro p hp
      rcases List.mem_singleton.mp hp with rfl
      exact hpatfree
    | cons c cs =>
      by_cases hmatch : pat.isPrefixOf (c :: cs) = true
      · have hpat1 : 1 ≤ pat.length := by
          cases pat with
          | nil => exact absurd rfl hne
          | cons _ _ => simp
        have hdrop : (List.drop pat.length (c :: cs)).length ≤ m := by
          rw [List.length_drop]
          simp only [List.length_cons]
          have : cs.length + 1 ≤ m + 1 := by simpa using hlen
          omega
        obtain ⟨parts2, hne2, hnp2, heq2, hout2⟩ := ih (List.drop pat.length (c :: cs)) hdrop
        cases parts2 with
        | nil => exact absurd rfl hne2
        | cons q qs =>
          refine ⟨[] :: q :: qs, by simp, ?_, ?_, ?_⟩
          · intro p hp
            rcases List.mem_cons.mp hp with rfl | hp
            · exact hpatfree
            · exact hnp2 p hp
          · show c :: cs = pat ++ joinParts pat (q :: qs)
            rw [← heq2]
            exact eq_append_drop_of_isPrefixOf pat (c :: cs) hmatch
          · show replaceAllAux pat rep (m + 1) (c :: cs) = rep ++ joinParts rep (q :: qs)
            simp only [replaceAllAux]
            rw [if_pos ⟨hne, hmatch⟩, hout2]
      · have hcs : cs.length ≤ m := by simpa using Nat.le_of_succ_le_succ hlen
        obtain ⟨parts2, hne2, hnp2, heq2, hout2⟩ := ih cs hcs
        cases parts2 with
        | nil => exact absurd rfl hne2
        | cons q qs =>
          refine ⟨(c :: q) :: qs, by simp, ?_, ?_, ?_⟩
          · intro p hp
            rcases List.mem_cons.mp hp with rfl | hp
            · have hq : hasSubList pat q = false := hnp2 q (List.mem_cons_self q qs)
              have hpre : pat.isPrefixOf (c :: q) = false := by
                cases hv : pat.isPrefixOf (c :: q) with
                | false => rfl
                | true =>
                  exfalso
                  have hqpre : ∃ X, cs = q ++ X := by
                    cases qs with
                    | nil =>
                      have hcsq : cs = q := heq2
                      exact ⟨[], by rw [hcsq, List.append_nil]⟩
                    | cons r rs =>
                      exact ⟨pat ++ joinParts pat (r :: rs), by
                        rw [heq2]
                        simp only [joinParts]
                        exact List.append_assoc q pat _⟩
                  obtain ⟨X, hX⟩ := hqpre
                  have hfull : pat.isPrefixOf (c :: cs) = true := by
                    rw [hX]
                    exact isPrefixOf_append_of pat (c :: q) X hv
                  exact hmatch hfull
              show (pat.isPrefixOf (c :: q) || hasSubList pat q) = false
              rw [hpre, hq]
              rfl
            · exact hnp2 p (List.mem_cons_of_mem q hp)
          · cases qs with
            | nil =>
              have hcsq : cs = q := heq2
              show c :: cs = c :: q
              rw [hcsq]
            | cons r rs =>
              have hcsq : cs = q ++ pat ++ joinParts pat (r :: rs) := heq2
              show c :: cs = (c :: q) ++ pat ++ joinParts pat (r :: rs)
              rw [hcsq]
              rfl
          · show replaceAllAux pat rep (m + 1) (c :: cs) = joinParts rep ((c :: q) :: qs)
            simp only [replaceAllAux]
            rw [if_neg (fun hcontra => hmatch hcontra.2), hout2]
            cases qs with
            | nil => rfl
            | cons r rs => rfl

/-- Replacement characterization at the string level: `s.replace(pat, rep)`
splits `s` into pattern-free segments joined by `pat` and rejoins exactly
those segments with `rep`. -/
theorem pyReplace_parts (s pat rep : String) (hne : pat.data ≠ []) :
    ∃ parts : List (List Char), parts ≠ [] ∧
      (∀ p ∈ parts, hasSubList pat.data p = false) ∧
      s.data = joinParts pat.data parts ∧
      (pyReplace s pat rep).data = joinParts rep.data parts :=
  replaceAllAux_parts pat.data rep.data hne s.data.length s.data (Nat.le_refl _)

/-- When the pattern occurs in the subject, the decomposition has at
least two segments, so at least one occurrence is replaced. -/
theorem pyReplace_parts_of_sub (s pat rep : String) (hne : pat.data ≠ [])
    (hsub : hasSub s pat = true) :
    ∃ parts : List (List Char), 2 ≤ parts.length ∧
      (∀ p ∈ parts, hasSubList pat.data p = false) ∧
      s.data = joinParts pat.data parts ∧
      (pyReplace s pat rep).data = joinParts rep.data parts := by
  obtain ⟨parts, hne2, hnp, hequ, hout⟩ := pyReplace_parts s pat rep hne
  refine ⟨parts, ?_, hnp, hequ, hout⟩
  cases parts with
  | nil => exact absurd rfl hne2
  | cons p ps =>
    cases ps with
    | nil =>
      exfalso
      have hsp : s.data = p := hequ
      have h2 : hasSubList pat.data s.data = true := hsub
      rw [hsp, hnp p (List.mem_cons_self p [])] at h2
      exact Bool.noConfusion h2
    | cons q qs => simp

/-! ### Stable descending sort

`list.sort(key=k, reverse=True)` in Python is a stable sort producing a
non-increasing arrangement of the keys.  A stable sort's output is uniquely
determined by the order and stability, so we model it by the stable
descending insertion sort below: an element is inserted before the first
element whose key is not strictly greater, so that earlier-listed elements
with equal keys stay first. -/

section StableSort

variable {α : Type}

/-- Insertion step of the stable descending sort keyed by a string. -/
def insertDesc (key : α → String) (x : α) : List α → List α
  | [] => [x]
  | y :: ys =>
    if ltStr (key x) (key y) = true then y :: insertDesc key x ys
    else x :: y :: ys

/-- Stable descending insertion sort: the model of Python
`list.sort(key=k, reverse=True)`. -/
def sortDesc (key : α → String) : List α → List α
  | [] => []
  | x :: xs => insertDesc key x (sortDesc key xs)

theorem insertDesc_perm (key : α → String) (x : α) :
    ∀ l : List α, (insertDesc key x l).Perm (x :: l)
  | [] => List.Perm.refl _
  | y :: ys => by
    simp only [insertDesc]
    by_cases h : ltStr (key x) (key y) = true
    · rw [if_pos h]
      exact ((insertDesc_perm key x ys).cons y).trans (List.Perm.swap x y ys)
    · rw [if_neg h]

theorem sortDesc_perm (key : α → String) : ∀ l : List α, (sortDesc key l).Perm l
  | [] => List.Perm.refl _
  | x :: xs => by
    simp only [sortDesc]
    exact (insertDesc_perm key x (sortDesc key xs)).trans ((sortDesc_perm key xs).cons x)

theorem mem_insertDesc {key : α → String} {x a : α} {l : List α} :
    a ∈ insertDesc key x l ↔ a = x ∨ a ∈ l := by
  rw [(insertDesc_perm key x l).mem_iff]
  simp

theorem mem_sortDesc {key : α → String} {a : α} {l : List α} :
    a ∈ sortDesc key l ↔ a ∈ l :=
  (sortDesc_perm key l).mem_iff

theorem insertDesc_sorted {key : α → String} (x : α) :
    ∀ {l : List α}, l.Pairwise (fun a b => ltStr (key a) (key b) = false) →
      (insertDesc key x l).Pairwise (fun a b => ltStr (key a) (key b) = false)
  | [], _ => by simp [insertDesc]
  | y :: ys, h => by
    rcases List.pairwise_cons.mp h with ⟨hy, hys⟩
    simp only [insertDesc]
    by_cases hxy : ltStr (key x) (key y) = true
    · rw [if_pos hxy]
      refine List.pairwise_cons.mpr ⟨?_, insertDesc_sorted x hys⟩
      intro b hb
      rcases mem_insertDesc.mp hb with rfl | hb
      · exact ltStr_asymm hxy
      · exact hy b hb
    · rw [if_neg hxy]
      refine List.pairwise_cons.mpr ⟨?_, h⟩
      intro b hb
      rcases List.mem_cons.mp hb with rfl | hb
      · exact Bool.eq_false_iff.mpr hxy
      · exact ltStr_nlt_trans (Bool.eq_false_iff.mpr hxy) (hy b hb)

theorem sortDesc_sorted (key : α → String) :
    ∀ l : List α, (sortDesc key l).Pairwise (fun a b => ltStr (key a) (key b) = false)
  | [] => List.Pairwise.nil
  | x :: xs => insertDesc_sorted x (sortDesc_sorted key xs)

theorem insertDesc_comm {key : α → String} {x y : α}
    (h : ltStr (key x) (key y) = true) :
    ∀ m : List α, insertDesc key y (insertDesc key x m) = insertDesc key x (insertDesc key y m)
  | [] => by
    have hyx : ltStr (key y) (key x) = false := ltStr_asymm h
    simp [insertDesc, h, hyx]
  | z :: zs => by
    have hyx : ltStr (key y) (key x) = false := ltStr_asymm h
    by_cases hxz : ltStr (key x) (key z) = true
    · by_cases hyz : ltStr (key y) (key z) = true
      · simp only [insertDesc, if_pos hxz, if_pos hyz]
        rw [insertDesc_comm h zs]
      · simp [insertDesc, hxz, hyz, h]
    · have hyz : ltStr (key y) (key z) = false := by
        cases hv : ltStr (key y) (key z) with
        | false => rfl
        | true => exact absurd (ltStr_trans h hv) (by simp [hxz])
      simp [insertDesc, hxz, hyz, hyx, h]

theorem sortDesc_insert_append (key : α → String) (x : α) :
    ∀ (s r : List α), sortDesc key (insertDesc key x s ++ r) = sortDesc key (x :: (s ++ r))
  | [], r => by simp [insertDesc]
  | y :: ys, r => by
    simp only [insertDesc]
    by_cases hxy : ltStr (key x) (key y) = true
    · rw [if_pos hxy]
      show sortDesc key (y :: (insertDesc key x ys ++ r)) = _
      simp only [sortDesc]
      rw [sortDesc_insert_append key x ys r]
      show insertDesc key y (sortDesc key (x :: (ys ++ r))) = _
      simp only [sortDesc]
      rw [insertDesc_comm hxy]
      rfl
    · rw [if_neg hxy]
      rfl

theorem sortDesc_idem_append (key : α → String) :
    ∀ (a r : List α), sortDesc key (sortDesc key a ++ r) = sortDesc key (a ++ r)
  | [], r => rfl
  | x :: xs, r => by
    show sortDesc key (insertDesc key x (sortDesc key xs) ++ r) = _
    rw [sortDesc_insert_append key x (sortDesc key xs) r]
    show insertDesc key x (sortDesc key (sortDesc key xs ++ r)) = _
    rw [sortDesc_idem_append key xs r]
    rfl

theorem sortDesc_congr_append (key : α → String) {X Y : List α}
    (h : sortDesc key X = sortDesc key Y) :
    ∀ a : List α, sortDesc key (a ++ X) = sortDesc key (a ++ Y)
  | [] => h
  | x :: xs => by
    show insertDesc key x (sortDesc key (xs ++ X)) = insertDesc key x (sortDesc key (xs ++ Y))
    rw [sortDesc_congr_append key h xs]

theorem sortDesc_flatten_map_sortDesc (key : α → String) :
    ∀ ls : List (List α),
      sortDesc key (List.flatten (List.map (sortDesc key) ls)) = sortDesc key (List.flatten ls)
  | [] => rfl
  | a :: t => by
    simp only [List.map_cons, List.flatten_cons]
    rw [sortDesc_idem_append key a (List.flatten (List.map (sortDesc key) t))]
    exact sortDesc_congr_append key (sortDesc_flatten_map_sortDesc key t) a

end StableSort

/-! ### HTTP fetch gateway (`ITunes._get`, lines 14-22)

The network itself is abstracted into a `FetchOutcome`: what `requests.get`
plus `raise_for_status` plus `response.json()` would have produced.
`requests.RequestException` covers connection errors and timeouts, the
`HTTPError` raised by `raise_for_status` for status codes in `[400, 600)`,
and (in requests ≥ 2.27) the `JSONDecodeError` raised for a body that is
not valid JSON.  A catch of `RequestException` therefore converts exactly
these outcomes into `{}` plus a printed diagnostic line. -/

/-- Decoded JSON value, the result type of `response.json()`. -/
inductive Json where
  | obj : List (String × Json) → Json
  | arr : List Json → Json
  | str : String → Json
  | num : Int → Json
  | bool : Bool → Json
  | null : Json

/-- Test for a JSON object (a Python `dict`). -/
def Json.isObj : Json → Bool
  | .obj _ => true
  | _ => false

/-- Outcome of the underlying `requests.get` call inside `_get`. -/
inductive FetchOutcome where
  | transportError (msg : String) : FetchOutcome
  | response (status : Nat) (body : Option Json) : FetchOutcome

/-- Empty JSON object `{}`. -/
def emptyJson : Json := .obj []

/-- Message of the `HTTPError` produced by `response.raise_for_status`. -/
def statusMsg (status : Nat) : String := toString status ++ " Error"

/-- Message of the decode error produced by `response.json()` on an
invalid-JSON body. -/
def jsonDecodeMsg : String := "Expecting value"

/-- Model of `ITunes._get` (ITunesAPI.py lines 14-22): try the request,
`raise_for_status`, decode JSON; on any `requests.RequestException` print
a diagnostic and return `{}`.  The second component is the diagnostic
line printed on failure. -/
def pyGet : FetchOutcome → Json × Option String
  | .transportError msg => (emptyJson, some ("Request failed: " ++ msg))
  | .response status body =>
    if 400 ≤ status ∧ status < 600 then
      (emptyJson, some ("Request failed: " ++ statusMsg status))
    else
      match body with
      | none => (emptyJson, some ("Request failed: " ++ jsonDecodeMsg))
      | some j => (j, none)

/-! ### Catalog fan-out aggregator (`ITunes.get_all_official_songs_by_artist`)

The decoded payloads of the search / album-lookup / track-lookup requests
are passed in as typed records; a field read with `dict.get` is an
`Option`, since the provider may omit it, and a failed fetch manifests as
an empty results list (`{}.get("results", []) == []`).  Python exceptions
raised while normalizing a track (`None.replace`, `fromisoformat`,
`album["collectionId"]`) are modelled with `Except`. -/

/-- Python exception kinds reachable in the embedded code. -/
inductive PyErr where
  | keyError (k : String)
  | attributeError (m : String)
  | valueError (m : String)
  | nameError (n : String)
deriving DecidableEq

/-- One element of the `results` list of the artist-search payload:
only `artistId` is read (`results[0].get("artistId")`). -/
structure SearchResult where
  artistId : Option Int
deriving DecidableEq

/-- Model of `ITunes.get_artist_id` (lines 24-35) applied to the decoded
`results` list of the search payload: the id of the first result, or
`None` when there are no results or the field is missing. -/
def get_artist_id (results : List SearchResult) : Option Int :=
  match results with
  | [] => none
  | r :: _ => r.artistId

/-- Truthiness of a Python `Optional[int]`: `None` and `0` are falsy.
Used by the `if not artist_id:` guard. -/
def idTruthy : Option Int → Bool
  | none => false
  | some i => i != 0

/-- One element of the `results` list of the album-lookup payload, with
the fields the aggregator reads.  `collectionId` and `collectionName`
are read with `album[...]`, which raises `KeyError` when absent. -/
structure RawAlbum where
  collectionType : Option String
  artistId : Option Int
  releaseDate : Option String
  collectionId : Option Int
  collectionName : Option String
deriving DecidableEq

/-- One element of the `results` list of a track-lookup payload. -/
structure RawTrack where
  wrapperType : Option String
  artistId : Option Int
  releaseDate : Option String
  trackName : Option String
  previewUrl : Option String
  trackNumber : Option Int
  trackId : Option Int
  artworkUrl100 : Option String
deriving DecidableEq

/-- Normalized track record built by `fetch_album_tracks` (lines 69-79). -/
structure Song where
  song_name : Option String
  album_name : String
  release_date : String
  release_month : String
  release_year : Int
  preview_url : Option String
  track_number : Option Int
  track_id : Option Int
  thumbnail : String
deriving DecidableEq

/-- English month names as produced by `strftime("%B")` in the C locale. -/
def monthName (m : Nat) : String :=
  (["January", "February", "March", "April", "May", "June", "July",
    "August", "September", "October", "November", "December"].getD (m - 1) "")

/-- Numeric value of a digit character. -/
def digitVal (c : Char) : Nat := c.toNat - 48

/-- Modelled abstraction of `datetime.fromisoformat` restricted to what the
code consumes: it accepts a string whose fixed-width `YYYY-MM-DD` date part
is well formed (month 01-12, day 01-31) and is the whole string or is
followed by a time part introduced by `T` or a space, and yields the year
and the month; anything else is a `ValueError`. -/
def parseIsoYearMonth (s : String) : Option (Int × Nat) :=
  match s.data with
  | y1 :: y2 :: y3 :: y4 :: s1 :: m1 :: m2 :: s2 :: d1 :: d2 :: rest =>
    let month := 10 * digitVal m1 + digitVal m2
    let day := 10 * digitVal d1 + digitVal d2
    if y1.isDigit && y2.isDigit && y3.isDigit && y4.isDigit &&
        (s1 == '-') && m1.isDigit && m2.isDigit && (s2 == '-') &&
        d1.isDigit && d2.isDigit &&
        decide (1 ≤ month) && decide (month ≤ 12) &&
        decide (1 ≤ day) && decide (day ≤ 31) &&
        (match rest with
         | [] => true
         | c :: _ => c == 'T' || c == ' ') then
      some ((1000 * digitVal y1 + 100 * digitVal y2 + 10 * digitVal y3 + digitVal y4 : Nat),
        month)
    else
      none
  | _ => none

/-- Thumbnail upgrade applied to track artwork in the aggregator
(line 78): `t.get("artworkUrl100").replace("100x100bb", "600x600bb")` —
only the `100x100bb` token is handled here. -/
def upgradeThumbAgg (u : String) : String := pyReplace u "100x100bb" "600x600bb"

/-- Model of the body of the per-track loop of `fetch_album_tracks`
(lines 66-79) for one kept entry: read `releaseDate` (calling `.replace`
on `None` is an `AttributeError`), normalize the `Z` suffix, parse it,
derive month name and year, and build the normalized record; reading
`artworkUrl100` when absent is likewise an `AttributeError`. -/
def normTrack (albumName : String) (t : RawTrack) : Except PyErr Song := do
  let releaseIso ← match t.releaseDate with
    | none => Except.error (PyErr.attributeError "replace")
    | some s => Except.ok s
  let ym ← match parseIsoYearMonth (pyReplace releaseIso "Z" "+00:00") with
    | none => Except.error (PyErr.valueError "Invalid isoformat string")
    | some p => Except.ok p
  let art ← match t.artworkUrl100 with
    | none => Except.error (PyErr.attributeError "replace")
    | some u => Except.ok u
  Except.ok
    { song_name := t.trackName
      album_name := albumName
      release_date := releaseIso
      release_month := monthName ym.2
      release_year := ym.1
      preview_url := t.previewUrl
      track_number := t.trackNumber
      track_id := t.trackId
      thumbnail := upgradeThumbAgg art }

/-- Sequential effectful map over a list in the `Except` monad, the order
in which both the Python loops and `as_completed` iteration accumulate
results and surface the first exception. -/
def mapExcept {α β ε : Type} (f : α → Except ε β) : List α → Except ε (List β)
  | [] => Except.ok []
  | a :: l => do
    let b ← f a
    let bs ← mapExcept f l
    Except.ok (b :: bs)

/-- Sort key of the final and per-album track sorts: `x["release_date"]`. -/
def songKey (s : Song) : String := s.release_date

/-- Sort key of the album sort: `x.get("releaseDate", "")`. -/
def albumKey (a : RawAlbum) : String := a.releaseDate.getD ""

/-- Model of the inner function `fetch_album_tracks` (lines 57-83).
`trackResults` maps an album's `collectionId` to the decoded `results`
list of its track lookup (a failed fetch manifests as `[]`). -/
def fetch_album_tracks (artist_id : Int) (trackResults : Int → List RawTrack)
    (album : RawAlbum) : Except PyErr (List Song) := do
  let albumId ← match album.collectionId with
    | none => Except.error (PyErr.keyError "collectionId")
    | some i => Except.ok i
  let albumName ← match album.collectionName with
    | none => Except.error (PyErr.keyError "collectionName")
    | some n => Except.ok n
  let kept := (trackResults albumId).filter
    (fun t => decide (t.wrapperType = some "track" ∧ t.artistId = some artist_id))
  let tracks ← mapExcept (normTrack albumName) kept
  Except.ok (sortDesc songKey tracks)

/-- Stage-2 album list (lines 47-53): filter the album-lookup results to
entries of collection type `"Album"` owned by the resolved artist, then
sort them newest first. -/
def albumStage (artist_id : Int) (albumResults : List RawAlbum) : List RawAlbum :=
  sortDesc albumKey (albumResults.filter
    (fun r => decide (r.collectionType = some "Album" ∧ r.artistId = some artist_id)))

/-- Log line printed when the artist does not resolve (line 40). -/
def notFoundLine (artist_name : String) : String :=
  "Artist \x27" ++ artist_name ++ "\x27 not found."

/-- Model of `ITunes.get_all_official_songs_by_artist` (lines 37-93).
`search` is the decoded `results` list of the artist search,
`albumResults` the decoded `results` list of the album lookup, and
`trackResults` the decoded per-album track lookups.  The thread pool
submits one `fetch_album_tracks` future per album of the sorted stage-2
list and `as_completed` yields them in a nondeterministic order;
`completionOrder` is the scheduler choosing that order, ranging over
functions whose value on the stage-2 list is a permutation of it.  The
first component is the returned list (or the exception re-raised by
`future.result()`), the second the printed log lines. -/
def get_all_official_songs_by_artist (artist_name : String)
    (search : List SearchResult) (albumResults : List RawAlbum)
    (trackResults : Int → List RawTrack)
    (completionOrder : List RawAlbum → List RawAlbum) :
    Except PyErr (List Song) × List String :=
  let artistIdOpt := get_artist_id search
  if idTruthy artistIdOpt = false then
    (Except.ok [], [notFoundLine artist_name])
  else
    match artistIdOpt with
    | none => (Except.ok [], [notFoundLine artist_name])
    | some artist_id =>
      let albums := albumStage artist_id albumResults
      let result := do
        let perAlbum ←
          mapExcept (fetch_album_tracks artist_id trackResults) (completionOrder albums)
        Except.ok (sortDesc songKey perAlbum.flatten)
      (result, [])

/-! ### Variant without the stage-3 per-album sort

Modelled from the spec's open question in §9: the reimplementation of the
aggregator that omits the intermediate per-album release-date sort of
stage 3 (line 82) while keeping everything else, used to settle whether
the omission changes observable output. -/

/-- Variant of `fetch_album_tracks` that returns the kept tracks in
payload order, without the per-album `tracks.sort(...)` of line 82. -/
def fetch_album_tracks_nosort (artist_id : Int) (trackResults : Int → List RawTrack)
    (album : RawAlbum) : Except PyErr (List Song) := do
  let albumId ← match album.collectionId with
    | none => Except.error (PyErr.keyError "collectionId")
    | some i => Except.ok i
  let albumName ← match album.collectionName with
    | none => Except.error (PyErr.keyError "collectionName")
    | some n => Except.ok n
  let kept := (trackResults albumId).filter
    (fun t => decide (t.wrapperType = some "track" ∧ t.artistId = some artist_id))
  let tracks ← mapExcept (normTrack albumName) kept
  Except.ok tracks

/-- Variant of the aggregator using `fetch_album_tracks_nosort`; the final
global sort of line 92 is retained. -/
def get_all_official_songs_by_artist_nosort (artist_name : String)
    (search : List SearchResult) (albumResults : List RawAlbum)
    (trackResults : Int → List RawTrack)
    (completionOrder : List RawAlbum → List RawAlbum) :
    Except PyErr (List Song) × List String :=
  let artistIdOpt := get_artist_id search
  if idTruthy artistIdOpt = false then
    (Except.ok [], [notFoundLine artist_name])
  else
    match artistIdOpt with
    | none => (Except.ok [], [notFoundLine artist_name])
    | some artist_id =>
      let albums := albumStage artist_id albumResults
      let result := do
        let perAlbum ←
          mapExcept (fetch_album_tracks_nosort artist_id trackResults) (completionOrder albums)
        Except.ok (sortDesc songKey perAlbum.flatten)
      (result, [])

/-! ### Presentation shaper (`get_artist_songs_with_sample_thumbnails`, lines 95-142) -/

/-- Per-song record stored in the grouped `albums` mapping (lines 113-120). -/
structure SongInfo where
  song_name : Option String
  release_date : String
  release_month : String
  release_year : Int
  thumbnail : String
  preview_url : Option String
deriving DecidableEq

/-- Projection of a `Song` to its grouped record. -/
def songInfoOf (s : Song) : SongInfo :=
  { song_name := s.song_name
    release_date := s.release_date
    release_month := s.release_month
    release_year := s.release_year
    thumbnail := s.thumbnail
    preview_url := s.preview_url }

/-- Append `v` under key `k` of an insertion-ordered mapping, the effect of
`albums_dict.setdefault`-style code of lines 121-123 on a Python dict. -/
def addToGroup (m : List (String × List SongInfo)) (k : String) (v : SongInfo) :
    List (String × List SongInfo) :=
  match m with
  | [] => [(k, [v])]
  | (k2, vs) :: t => if k2 = k then (k2, vs ++ [v]) :: t else (k2, vs) :: addToGroup t k v

/-- Grouping of the song list by `album_name` (lines 110-123), preserving
first-seen key order and per-key song order. -/
def groupByAlbum (songs : List Song) : List (String × List SongInfo) :=
  songs.foldl (fun m s => addToGroup m s.album_name (songInfoOf s)) []

/-- Value of one key of the returned envelope dict. -/
inductive EnvVal where
  | str : String → EnvVal
  | int : Int → EnvVal
  | albumsMap : List (String × List SongInfo) → EnvVal
  | strList : List String → EnvVal
deriving DecidableEq

/-- Model of `get_artist_songs_with_sample_thumbnails` (lines 95-142).
The envelope dict is an insertion-ordered key/value list, so presence and
absence of a key are observable.  `random.sample(all_songs, 3)` is modelled
by the `sampleSongs` argument (the claims do not constrain which sample is
drawn). -/
def get_artist_songs_with_sample_thumbnails
    (sampleSongs : List Song → Nat → List Song) (artist_name : String)
    (search : List SearchResult) (albumResults : List RawAlbum)
    (trackResults : Int → List RawTrack)
    (completionOrder : List RawAlbum → List RawAlbum) :
    Except PyErr (List (String × EnvVal)) × List String :=
  let res :=
    get_all_official_songs_by_artist artist_name search albumResults trackResults completionOrder
  match res.1 with
  | Except.error e => (Except.error e, res.2)
  | Except.ok all_songs =>
    if all_songs.isEmpty then
      (Except.ok [("artist", EnvVal.str artist_name),
                  ("total_songs", EnvVal.int 0),
                  ("albums", EnvVal.albumsMap []),
                  ("sample_thumbnails", EnvVal.strList [])], res.2)
    else
      let albums_dict := groupByAlbum all_songs
      let sample_thumbnails :=
        if 3 ≤ all_songs.length then (sampleSongs all_songs 3).map (fun s => s.thumbnail)
        else all_songs.map (fun s => s.thumbnail)
      (Except.ok [("artist", EnvVal.str artist_name),
                  ("total_songs", EnvVal.int all_songs.length),
                  ("total_albums", EnvVal.int albums_dict.length),
                  ("albums", EnvVal.albumsMap albums_dict),
                  ("sample_thumbnails", EnvVal.strList sample_thumbnails)], res.2)

/-! ### Chart feed parsers (`get_top_global_artists`, `get_top_country_songs`)

Feed entries are passed in decoded form: `data.get("feed", {}).get("entry", [])`.
A failed feed fetch returns `[]` before this loop is reached, so the loop
bodies are modelled on the entries list. -/

/-- One element of an entry's `im:image` list. -/
structure FeedImage where
  label : Option String
deriving DecidableEq

/-- Thumbnail upgrade applied to feed images in the chart parsers
(lines 173-180, 244-251 and 329-335): both the `100x100bb` and the
`170x170bb` tokens are recognized; anything else passes through. -/
def upgradeThumbChart (u : String) : String :=
  if hasSub u "100x100bb" = true then pyReplace u "100x100bb" "600x600bb"
  else if hasSub u "170x170bb" = true then pyReplace u "170x170bb" "600x600bb"
  else u

/-- Thumbnail of one feed entry: `None` when the image list is empty,
otherwise the upgraded label of the last image (`images[-1].get("label", "")`). -/
def thumbOfImages (images : List FeedImage) : Option String :=
  match images.getLast? with
  | none => none
  | some im => some (upgradeThumbChart (im.label.getD ""))

/-- Truthiness of a Python `Optional[str]`: `None` and `""` are falsy. -/
def optStrFalsy : Option String → Bool
  | none => true
  | some s => s == ""

/-- One entry of the top-songs feed as read by `get_top_global_artists`:
`entry["im:artist"]["label"]` and the image list. -/
structure ArtistEntry where
  artistName : Option String
  images : List FeedImage
deriving DecidableEq

/-- One produced chart-artist record (lines 182-186). -/
structure ChartArtist where
  rank : Nat
  artist_name : String
  thumbnail : Option String
deriving DecidableEq

/-- Model of the artist loop of `get_top_global_artists` (lines 158-191):
`seen` is the `seen_artists` set (as the list of names added so far),
`count` is `len(artists)` so far.  The `len(artists) >= limit` break check
runs after the append. -/
def topArtistsLoop (limit : Int) : List String → Nat → List ArtistEntry → List ChartArtist
  | _, _, [] => []
  | seen, count, e :: es =>
    let name := e.artistName.getD ""
    if optStrFalsy e.artistName || decide (name ∈ seen) then
      topArtistsLoop limit seen count es
    else
      let entry : ChartArtist :=
        { rank := count + 1, artist_name := name, thumbnail := thumbOfImages e.images }
      if limit ≤ (count + 1 : Int) then [entry]
      else entry :: topArtistsLoop limit (name :: seen) (count + 1) es

/-- Feed URL requested by `get_top_global_artists` (line 149): a literal
with the internal limit 200 baked in; the `limit` argument does not occur
in it. -/
def topGlobalArtistsUrl (limit : Int) : String :=
  "https://itunes.apple.com/us/rss/topsongs/limit=200/json"

/-- Model of `get_top_global_artists` (lines 145-191) applied to the
decoded feed entries. -/
def get_top_global_artists (entries : List ArtistEntry) (limit : Int) : List ChartArtist :=
  topArtistsLoop limit [] 0 entries

/-- Attributes of one element of an entry's `link` list. -/
structure LinkAttr where
  type : Option String
  href : Option String
deriving DecidableEq

/-- One entry of the per-country top-songs feed as read by
`get_top_country_songs`. -/
structure SongEntry where
  songName : Option String
  artistName : Option String
  images : List FeedImage
  links : List LinkAttr
deriving DecidableEq

/-- One produced country-chart song record (lines 346-352). -/
structure CountrySong where
  rank : Nat
  song_name : Option String
  artist_name : Option String
  thumbnail : Option String
  preview_url : Option String
deriving DecidableEq

/-- Link scan of lines 338-344: the value assigned to `preview_url` by the
first link whose `type` attribute equals `"audio/x-m4a"` (namely that
link's `href`, possibly `None`), or `none` when no link matches and the
variable is left untouched. -/
def findAudioLink : List LinkAttr → Option (Option String)
  | [] => none
  | l :: ls => if l.type == some "audio/x-m4a" then some l.href else findAudioLink ls

/-- Model of the entry loop of `get_top_country_songs` (lines 319-354).
Unlike `get_top_global_songs` (line 242), this loop never initialises
`preview_url` inside the loop body, so the variable's state must be
threaded across iterations: `previewVar = none` means the Python local is
still unbound, and reading it then raises `UnboundLocalError` (a
`NameError`). -/
def countrySongsLoop : Option (Option String) → Nat → List SongEntry →
    Except PyErr (List CountrySong)
  | _, _, [] => Except.ok []
  | previewVar, idx, e :: es =>
    let thumbnail := thumbOfImages e.images
    let previewVar2 :=
      match findAudioLink e.links with
      | some assigned => some assigned
      | none => previewVar
    match previewVar2 with
    | none => Except.error (PyErr.nameError "preview_url")
    | some preview => do
      let rest ← countrySongsLoop (some preview) (idx + 1) es
      Except.ok ({ rank := idx, song_name := e.songName, artist_name := e.artistName,
                   thumbnail := thumbnail, preview_url := preview } :: rest)

/-- Model of `get_top_country_songs` (lines 302-354) applied to the decoded
feed entries: ranks start at 1 and `preview_url` starts unbound. -/
def get_top_country_songs (entries : List SongEntry) : Except PyErr (List CountrySong) :=
  countrySongsLoop none 1 entries

/-! ### LastFM client (`LastFM.py`) -/

/-- Warning printed by the constructor when the key is absent (line 14). -/
def lastFMWarning : String := "Warning: LASTFM_API_KEY not found in environment variables"

/-- Client state: the `api_key` captured from the environment. -/
structure LastFMClient where
  api_key : Option String

/-- Model of `LastFMClient.__init__` (lines 11-14): read `LASTFM_API_KEY`
from the process environment `env` and warn (once, at construction) when it
is missing.  The second component is the printed output. -/
def mkLastFMClient (env : String → Option String) : LastFMClient × List String :=
  let key := env "LASTFM_API_KEY"
  (⟨key⟩, if optStrFalsy key then [lastFMWarning] else [])

/-- Query parameters of the one request `get_global_top_artists` can make
(lines 23-28). -/
structure LFMRequest where
  method : String
  api_key : String
  format : String
  limit : Int

/-- Outcome of the Last.fm request: a `requests.RequestException` (covering
transport errors, `raise_for_status`, and JSON decode errors), or a decoded
payload, where the outer `Option` is the presence of the `"artists"` key
and the inner one the presence of `"artist"` inside it. -/
inductive LFMOutcome where
  | failure (msg : String)
  | payload (artistsField : Option (Option (List Json)))

/-- Model of `LastFMClient.get_global_top_artists` (lines 16-41).  The
`responder` argument stands for the network.  Returned: the artist list,
the list of HTTP requests actually issued, and the printed lines. -/
def LastFMClient.get_global_top_artists (c : LastFMClient) (limit : Int)
    (responder : LFMRequest → LFMOutcome) :
    List Json × List LFMRequest × List String :=
  if optStrFalsy c.api_key then ([], [], [])
  else
    match c.api_key with
    | none => ([], [], [])
    | some key =>
      let req : LFMRequest :=
        { method := "chart.gettopartists", api_key := key, format := "json", limit := limit }
      match responder req with
      | LFMOutcome.failure msg => ([], [req], ["Error fetching data from Last.fm: " ++ msg])
      | LFMOutcome.payload none => ([], [req], [])
      | LFMOutcome.payload (some none) => ([], [req], [])
      | LFMOutcome.payload (some (some l)) => (l, [req], [])

/-! ### Concrete inputs used by witnesses and the §8 concrete scenario -/

/-- Search payload resolving to artist id 7. -/
def exSearch : List SearchResult := [⟨some 7⟩]

/-- Album `{id: 1, name: "A", date: "2020-01-01", artistId: 7}`. -/
def exAlbum1 : RawAlbum :=
  { collectionType := some "Album", artistId := some 7, releaseDate := some "2020-01-01",
    collectionId := some 1, collectionName := some "A" }

/-- Album `{id: 2, name: "B", date: "2021-01-01", artistId: 7}`. -/
def exAlbum2 : RawAlbum :=
  { collectionType := some "Album", artistId := some 7, releaseDate := some "2021-01-01",
    collectionId := some 2, collectionName := some "B" }

/-- Track `{trackId: 101, artistId: 7, date: "2021-01-01T00:00:00Z", kind: "track"}`. -/
def exTrack101 : RawTrack :=
  { wrapperType := some "track", artistId := some 7,
    releaseDate := some "2021-01-01T00:00:00Z", trackName := some "S",
    previewUrl := none, trackNumber := some 1, trackId := some 101,
    artworkUrl100 := some "https://a/100x100bb/b.jpg" }

/-- Track lookups: album 2 returns the one matching track, album 1 returns
`[]` (simulated failure per the gateway policy). -/
def exTrackResults : Int → List RawTrack := fun cid => if cid = 2 then [exTrack101] else []

/-- Scheduler completing the album fetches in submission order. -/
def exOrder : List RawAlbum → List RawAlbum := fun l => l

/-- Normalized form of `exTrack101`. -/
def exSong101 : Song :=
  { song_name := some "S", album_name := "B", release_date := "2021-01-01T00:00:00Z",
    release_month := "January", release_year := 2021, preview_url := none,
    track_number := some 1, track_id := some 101, thumbnail := "https://a/600x600bb/b.jpg" }

/-! ### Claim C7 — HTTP fetch gateway -/

/-- C7 counterexample: the claim says `_get` returns an empty JSON object
on any non-2xx status and that every caller always receives a dict.  A
final status 304 (non-2xx, but below the 400 threshold of
`raise_for_status`) with a body decoding to a JSON array is returned
as-is: no empty object, no dict, no diagnostic. -/
theorem C7_nonobject_counterexample :
    pyGet (FetchOutcome.response 304 (some (Json.arr []))) = (Json.arr [], none) ∧
    Json.isObj (Json.arr []) = false ∧ ¬ (200 ≤ 304 ∧ 304 < 300) :=
  ⟨rfl, rfl, by decide⟩

/-- C7 (amended): `_get` never raises; it returns `{}` plus a diagnostic
on any transport failure or timeout, on any status in `[400, 600)` (the
statuses `raise_for_status` raises for), and on an invalid-JSON body;
otherwise it returns the decoded JSON body as-is, so the caller receives
a dict whenever the body is a JSON object, but a valid non-object body is
passed through and statuses below 400 are not treated as errors. -/
theorem C7_gateway_soft_fail :
    (∀ msg, pyGet (FetchOutcome.transportError msg)
        = (emptyJson, some ("Request failed: " ++ msg))) ∧
    (∀ status body, 400 ≤ status → status < 600 →
        pyGet (FetchOutcome.response status body)
          = (emptyJson, some ("Request failed: " ++ statusMsg status))) ∧
    (∀ status, ¬ (400 ≤ status ∧ status < 600) →
        pyGet (FetchOutcome.response status none)
          = (emptyJson, some ("Request failed: " ++ jsonDecodeMsg))) ∧
    (∀ status j, ¬ (400 ≤ status ∧ status < 600) →
        pyGet (FetchOutcome.response status (some j)) = (j, none)) := by
  refine ⟨fun msg => rfl, ?_, ?_, ?_⟩
  · intro status body h1 h2
    simp [pyGet, if_pos (And.intro h1 h2)]
  · intro status h
    simp [pyGet, if_neg h]
  · intro status j h
    simp [pyGet, if_neg h]

/-- Witness for C7: a concrete 404 with a JSON body still yields `{}` and
a diagnostic. -/
theorem C7_witness :
    pyGet (FetchOutcome.response 404 (some (Json.num 1)))
      = (emptyJson, some ("Request failed: " ++ statusMsg 404)) :=
  C7_gateway_soft_fail.2.1 404 (some (Json.num 1)) (by decide) (by decide)

/-! ### Claim C10 — missing Last.fm API key -/

/-- C10: with `LASTFM_API_KEY` absent from the environment, construction
prints the warning exactly once, and every later call of
`get_global_top_artists` returns `[]`, issues no HTTP request, and prints
nothing. -/
theorem C10_missing_key_soft (env : String → Option String)
    (h : env "LASTFM_API_KEY" = none) :
    (mkLastFMClient env).2 = [lastFMWarning] ∧
    (∀ (limit : Int) (responder : LFMRequest → LFMOutcome),
      (mkLastFMClient env).1.get_global_top_artists limit responder = ([], [], [])) := by
  constructor
  · simp [mkLastFMClient, h, optStrFalsy]
  · intro limit responder
    simp [mkLastFMClient, h, LastFMClient.get_global_top_artists, optStrFalsy]

/-- Witness for C10 at the empty environment. -/
theorem C10_witness :
    (mkLastFMClient (fun _ => none)).2 = [lastFMWarning] ∧
    (mkLastFMClient (fun _ => none)).1.get_global_top_artists 100 (fun _ => LFMOutcome.failure "x")
      = ([], [], []) :=
  ⟨(C10_missing_key_soft (fun _ => none) rfl).1,
   (C10_missing_key_soft (fun _ => none) rfl).2 100 (fun _ => LFMOutcome.failure "x")⟩

/-! ### Claim C6 — thumbnail token upgrade -/

/-- C6 counterexample: the claim covers track artwork in the aggregator
for both recognized tokens, but the aggregator only replaces `100x100bb`
(line 78); a track artwork URL containing `170x170bb` passes through
unchanged, with no `600x600bb` in the output. -/
theorem C6_agg_170_counterexample :
    hasSub "https://a/170x170bb/b.jpg" "170x170bb" = true ∧
    upgradeThumbAgg "https://a/170x170bb/b.jpg" = "https://a/170x170bb/b.jpg" ∧
    hasSub (upgradeThumbAgg "https://a/170x170bb/b.jpg") "600x600bb" = false := by
  refine ⟨by decide, ?_, by decide⟩
  exact pyReplace_of_not_sub _ _ _ (by decide)

/-- C6 (amended): in the chart parsers a URL containing `100x100bb`, or
else `170x170bb`, has that token replaced by `600x600bb` in place with no
other change — the URL splits into token-free segments joined by the
recognized token, and the output is exactly the same segments joined by
the upgraded token, with at least one occurrence replaced — and any URL
with no recognized token passes through unchanged; in the aggregator only
`100x100bb` is recognized, so artwork URLs without it, including ones
carrying `170x170bb`, pass through unchanged. -/
theorem C6_thumbnail_tokens :
    (∀ u, hasSub u "100x100bb" = false → upgradeThumbAgg u = u) ∧
    (∀ u, hasSub u "100x100bb" = true →
        ∃ parts : List (List Char), 2 ≤ parts.length ∧
          (∀ p ∈ parts, hasSubList "100x100bb".data p = false) ∧
          u.data = joinParts "100x100bb".data parts ∧
          (upgradeThumbAgg u).data = joinParts "600x600bb".data parts) ∧
    (∀ u, hasSub u "100x100bb" = false → hasSub u "170x170bb" = false →
        upgradeThumbChart u = u) ∧
    (∀ u, hasSub u "100x100bb" = true →
        ∃ parts : List (List Char), 2 ≤ parts.length ∧
          (∀ p ∈ parts, hasSubList "100x100bb".data p = false) ∧
          u.data = joinParts "100x100bb".data parts ∧
          (upgradeThumbChart u).data = joinParts "600x600bb".data parts) ∧
    (∀ u, hasSub u "100x100bb" = false → hasSub u "170x170bb" = true →
        ∃ parts : List (List Char), 2 ≤ parts.length ∧
          (∀ p ∈ parts, hasSubList "170x170bb".data p = false) ∧
          u.data = joinParts "170x170bb".data parts ∧
          (upgradeThumbChart u).data = joinParts "600x600bb".data parts) := by
  refine ⟨?_, ?_, ?_, ?_, ?_⟩
  · intro u h
    exact pyReplace_of_not_sub u _ _ h
  · intro u h
    exact pyReplace_parts_of_sub u "100x100bb" "600x600bb" (by decide) h
  · intro u h1 h2
    simp [upgradeThumbChart, h1, h2]
  · intro u h
    have hcu : upgradeThumbChart u = pyReplace u "100x100bb" "600x600bb" := by
      simp only [upgradeThumbChart, if_pos h]
    rw [hcu]
    exact pyReplace_parts_of_sub u "100x100bb" "600x600bb" (by decide) h
  · intro u h1 h2
    have hcu : upgradeThumbChart u = pyReplace u "170x170bb" "600x600bb" := by
      rw [upgradeThumbChart, if_neg (by simp [h1]), if_pos h2]
    rw [hcu]
    exact pyReplace_parts_of_sub u "170x170bb" "600x600bb" (by decide) h2

/-- Witness for C6 on concrete URLs for each recognized token. -/
theorem C6_witness :
    upgradeThumbAgg "https://a/x.jpg" = "https://a/x.jpg" ∧
    (∃ parts : List (List Char), 2 ≤ parts.length ∧
      (∀ p ∈ parts, hasSubList "100x100bb".data p = false) ∧
      "https://a/100x100bb/b.jpg".data = joinParts "100x100bb".data parts ∧
      (upgradeThumbAgg "https://a/100x100bb/b.jpg").data
        = joinParts "600x600bb".data parts) ∧
    (∃ parts : List (List Char), 2 ≤ parts.length ∧
      (∀ p ∈ parts, hasSubList "170x170bb".data p = false) ∧
      "https://a/170x170bb/b.jpg".data = joinParts "170x170bb".data parts ∧
      (upgradeThumbChart "https://a/170x170bb/b.jpg").data
        = joinParts "600x600bb".data parts) :=
  ⟨C6_thumbnail_tokens.1 "https://a/x.jpg" (by decide),
   C6_thumbnail_tokens.2.1 "https://a/100x100bb/b.jpg" (by decide),
   C6_thumbnail_tokens.2.2.2.2 "https://a/170x170bb/b.jpg" (by decide) (by decide)⟩

/-! ### Claim C4 — `get_top_country_songs` preview handling -/

/-- C4: the claim says the country parser never raises and that each
entry's `preview_url` comes from that same entry's link list (or is
`None`).  The code never initialises `preview_url` inside the loop (its
sibling `get_top_global_songs` does, line 242), so a feed whose first
entry has no `audio/x-m4a` link raises `UnboundLocalError`, and an entry
without such a link after one with it inherits the earlier entry's
preview URL.  Both divergences evaluated on concrete feeds. -/
theorem C4_country_songs_unbound_preview :
    get_top_country_songs
        [{ songName := some "s1", artistName := some "a1", images := [], links := [] }]
      = Except.error (PyErr.nameError "preview_url") ∧
    get_top_country_songs
        [{ songName := some "s1", artistName := some "a1", images := [],
           links := [{ type := some "audio/x-m4a", href := some "p1" }] },
         { songName := some "s2", artistName := some "a2", images := [], links := [] }]
      = Except.ok
          [{ rank := 1, song_name := some "s1", artist_name := some "a1",
             thumbnail := none, preview_url := some "p1" },
           { rank := 2, song_name := some "s2", artist_name := some "a2",
             thumbnail := none, preview_url := some "p1" }] :=
  ⟨rfl, rfl⟩

/-! ### Claims C1, C2, C3, C5 — the fan-out aggregator -/

theorem mapExcept_ok_mem {α β ε : Type} {f : α → Except ε β} :
    ∀ {l : List α} {ys : List β}, mapExcept f l = Except.ok ys →
      ∀ y ∈ ys, ∃ x ∈ l, f x = Except.ok y
  | [], ys, h, y, hy => by
    obtain rfl : ([] : List β) = ys := Except.ok.inj h
    simp at hy
  | a :: l, ys, h, y, hy => by
    simp only [mapExcept] at h
    cases hfa : f a with
    | error e =>
      rw [hfa] at h
      have h' : (Except.error e : Except ε (List β)) = Except.ok ys := h
      exact Except.noConfusion h'
    | ok b =>
      rw [hfa] at h
      cases hml : mapExcept f l with
      | error e =>
        rw [hml] at h
        have h' : (Except.error e : Except ε (List β)) = Except.ok ys := h
        exact Except.noConfusion h'
      | ok bs =>
        rw [hml] at h
        have h' : Except.ok (b :: bs) = Except.ok ys := h
        cases Except.ok.inj h'
        rcases List.mem_cons.mp hy with rfl | hy2
        · exact ⟨a, List.mem_cons_self a l, hfa⟩
        · obtain ⟨x, hx, hfx⟩ := mapExcept_ok_mem hml y hy2
          exact ⟨x, List.mem_cons_of_mem a hx, hfx⟩

theorem fetch_album_tracks_ok_mem {artist_id : Int} {trackResults : Int → List RawTrack}
    {album : RawAlbum} {l : List Song}
    (h : fetch_album_tracks artist_id trackResults album = Except.ok l)
    {s : Song} (hs : s ∈ l) :
    ∃ albumId albumName, album.collectionId = some albumId ∧
      album.collectionName = some albumName ∧
      ∃ t ∈ trackResults albumId, t.wrapperType = some "track" ∧
        t.artistId = some artist_id ∧ normTrack albumName t = Except.ok s := by
  obtain ⟨ct, aid0, rd, cidOpt, cnOpt⟩ := album
  cases cidOpt with
  | none =>
    have h' : (Except.error (PyErr.keyError "collectionId") : Except PyErr (List Song))
        = Except.ok l := h
    exact Except.noConfusion h'
  | some albumId =>
    cases cnOpt with
    | none =>
      have h' : (Except.error (PyErr.keyError "collectionName") : Except PyErr (List Song))
          = Except.ok l := h
      exact Except.noConfusion h'
    | some albumName =>
      have h' : (do
          let tracks ← mapExcept (normTrack albumName) ((trackResults albumId).filter
            (fun t => decide (t.wrapperType = some "track" ∧ t.artistId = some artist_id)))
          Except.ok (sortDesc songKey tracks)) = Except.ok l := h
      cases hm : mapExcept (normTrack albumName) ((trackResults albumId).filter
          (fun t => decide (t.wrapperType = some "track" ∧ t.artistId = some artist_id))) with
      | error e =>
        rw [hm] at h'
        have h2 : (Except.error e : Except PyErr (List Song)) = Except.ok l := h'
        exact Except.noConfusion h2
      | ok tracks =>
        rw [hm] at h'
        have h2 : Except.ok (sortDesc songKey tracks) = Except.ok l := h'
        cases Except.ok.inj h2
        have hs2 : s ∈ tracks := mem_sortDesc.mp hs
        obtain ⟨t, ht, hnt⟩ := mapExcept_ok_mem hm s hs2
        rcases List.mem_filter.mp ht with ⟨htl, hcond⟩
        have hc := of_decide_eq_true hcond
        exact ⟨albumId, albumName, rfl, rfl, t, htl, hc.1, hc.2, hnt⟩

/-- C1: for every resolving input, every set of per-album fetch results
and every completion order, a successfully returned sequence is sorted by
`release_date` in non-increasing order (no later element's key is
strictly greater than an earlier one's under Python string comparison). -/
theorem C1_final_sort_descending (artist_name : String) (search : List SearchResult)
    (albumResults : List RawAlbum) (trackResults : Int → List RawTrack)
    (completionOrder : List RawAlbum → List RawAlbum) (songs : List Song)
    (h : (get_all_official_songs_by_artist artist_name search albumResults trackResults
        completionOrder).1 = Except.ok songs) :
    songs.Pairwise (fun a b => ltStr a.release_date b.release_date = false) := by
  simp only [get_all_official_songs_by_artist] at h
  by_cases hid : idTruthy (get_artist_id search) = false
  · rw [if_pos hid] at h
    obtain rfl : ([] : List Song) = songs := Except.ok.inj h
    exact List.Pairwise.nil
  · rw [if_neg hid] at h
    cases hgi : get_artist_id search with
    | none => exact absurd (by rw [hgi]; rfl) hid
    | some aid =>
      rw [hgi] at h
      have h' : (do
          let perAlbum ← mapExcept (fetch_album_tracks aid trackResults)
            (completionOrder (albumStage aid albumResults))
          Except.ok (sortDesc songKey perAlbum.flatten)) = Except.ok songs := h
      cases hm : mapExcept (fetch_album_tracks aid trackResults)
          (completionOrder (albumStage aid albumResults)) with
      | error e =>
        rw [hm] at h'
        have h2 : (Except.error e : Except PyErr (List Song)) = Except.ok songs := h'
        exact Except.noConfusion h2
      | ok ls =>
        rw [hm] at h'
        have h2 : Except.ok (sortDesc songKey ls.flatten) = Except.ok songs := h'
        obtain rfl := Except.ok.inj h2
        exact sortDesc_sorted songKey _

/-- Witness for C1: the two-album scenario run, whose output is the
singleton `[exSong101]`. -/
theorem C1_witness :
    List.Pairwise (fun a b => ltStr a.release_date b.release_date = false) [exSong101] :=
  C1_final_sort_descending "X" exSearch [exAlbum1, exAlbum2] exTrackResults exOrder
    [exSong101] rfl

/-- C2: every song of a successfully returned sequence originates from a
raw entry of some fetched album whose wrapper kind is `"track"` and whose
owning-artist id equals the resolved artist id. -/
theorem C2_artist_filter_provenance (artist_name : String) (search : List SearchResult)
    (albumResults : List RawAlbum) (trackResults : Int → List RawTrack)
    (completionOrder : List RawAlbum → List RawAlbum) (songs : List Song)
    (h : (get_all_official_songs_by_artist artist_name search albumResults trackResults
        completionOrder).1 = Except.ok songs) (s : Song) (hs : s ∈ songs) :
    ∃ artist_id, get_artist_id search = some artist_id ∧
      ∃ album ∈ completionOrder (albumStage artist_id albumResults),
        ∃ albumId albumName, album.collectionId = some albumId ∧
          album.collectionName = some albumName ∧
          ∃ t ∈ trackResults albumId, t.wrapperType = some "track" ∧
            t.artistId = some artist_id ∧ normTrack albumName t = Except.ok s := by
  simp only [get_all_official_songs_by_artist] at h
  by_cases hid : idTruthy (get_artist_id search) = false
  · rw [if_pos hid] at h
    obtain rfl : ([] : List Song) = songs := Except.ok.inj h
    simp at hs
  · rw [if_neg hid] at h
    cases hgi : get_artist_id search with
    | none => exact absurd (by rw [hgi]; rfl) hid
    | some aid =>
      rw [hgi] at h
      have h' : (do
          let perAlbum ← mapExcept (fetch_album_tracks aid trackResults)
            (completionOrder (albumStage aid albumResults))
          Except.ok (sortDesc songKey perAlbum.flatten)) = Except.ok songs := h
      cases hm : mapExcept (fetch_album_tracks aid trackResults)
          (completionOrder (albumStage aid albumResults)) with
      | error e =>
        rw [hm] at h'
        have h2 : (Except.error e : Except PyErr (List Song)) = Except.ok songs := h'
        exact Except.noConfusion h2
      | ok ls =>
        rw [hm] at h'
        have h2 : Except.ok (sortDesc songKey ls.flatten) = Except.ok songs := h'
        obtain rfl := Except.ok.inj h2
        have hsf : s ∈ ls.flatten := mem_sortDesc.mp hs
        obtain ⟨tl, htl, hstl⟩ := List.mem_flatten.mp hsf
        obtain ⟨album, halbum, hfetch⟩ := mapExcept_ok_mem hm tl htl
        obtain ⟨albumId, albumName, h1, h2, t, ht, hw, ha, hn⟩ :=
          fetch_album_tracks_ok_mem hfetch hstl
        exact ⟨aid, rfl, album, halbum, albumId, albumName, h1, h2, t, ht, hw, ha, hn⟩

/-- Witness for C2 on the concrete two-album run. -/
theorem C2_witness :
    ∃ artist_id, get_artist_id exSearch = some artist_id ∧
      ∃ album ∈ exOrder (albumStage artist_id [exAlbum1, exAlbum2]),
        ∃ albumId albumName, album.collectionId = some albumId ∧
          album.collectionName = some albumName ∧
          ∃ t ∈ exTrackResults albumId, t.wrapperType = some "track" ∧
            t.artistId = some artist_id ∧ normTrack albumName t = Except.ok exSong101 :=
  C2_artist_filter_provenance "X" exSearch [exAlbum1, exAlbum2] exTrackResults exOrder
    [exSong101] rfl exSong101 (by simp)

theorem fetch_album_tracks_empty (artist_id : Int) (trackResults : Int → List RawTrack)
    (album : RawAlbum) (cid : Int) (nm : String)
    (h1 : album.collectionId = some cid) (h2 : album.collectionName = some nm)
    (h3 : trackResults cid = []) :
    fetch_album_tracks artist_id trackResults album = Except.ok [] := by
  obtain ⟨ct, aid0, rd, cidOpt, cnOpt⟩ := album
  obtain rfl : cidOpt = some cid := h1
  obtain rfl : cnOpt = some nm := h2
  show (do
      let tracks ← mapExcept (normTrack nm) ((trackResults cid).filter
        (fun t => decide (t.wrapperType = some "track" ∧ t.artistId = some artist_id)))
      Except.ok (sortDesc songKey tracks)) = Except.ok []
  rw [h3]
  rfl

theorem mapExcept_middle_nil {F : RawAlbum → Except PyErr (List Song)} {a : RawAlbum}
    (hFa : F a = Except.ok []) (o2 : List RawAlbum) :
    ∀ o1 : List RawAlbum,
      (mapExcept F (o1 ++ a :: o2)).map List.flatten
        = (mapExcept F (o1 ++ o2)).map List.flatten
  | [] => by
    show (mapExcept F (a :: o2)).map List.flatten = (mapExcept F o2).map List.flatten
    simp only [mapExcept]
    rw [hFa]
    cases hm : mapExcept F o2 with
    | error e => rfl
    | ok bs => rfl
  | c :: o1 => by
    show (mapExcept F (c :: (o1 ++ a :: o2))).map List.flatten
        = (mapExcept F (c :: (o1 ++ o2))).map List.flatten
    simp only [mapExcept]
    cases hc : F c with
    | error e => rfl
    | ok b =>
      have ih := mapExcept_middle_nil hFa o2 o1
      cases hm1 : mapExcept F (o1 ++ a :: o2) with
      | error e1 =>
        cases hm2 : mapExcept F (o1 ++ o2) with
        | error e2 =>
          rw [hm1, hm2] at ih
          have h12 : (Except.error e1 : Except PyErr (List Song)) = Except.error e2 := ih
          cases Except.error.inj h12
          rfl
        | ok l2 =>
          rw [hm1, hm2] at ih
          have h12 : (Except.error e1 : Except PyErr (List Song))
              = Except.ok (List.flatten l2) := ih
          exact Except.noConfusion h12
      | ok l1 =>
        cases hm2 : mapExcept F (o1 ++ o2) with
        | error e2 =>
          rw [hm1, hm2] at ih
          have h12 : Except.ok (List.flatten l1)
              = (Except.error e2 : Except PyErr (List Song)) := ih
          exact Except.noConfusion h12
        | ok l2 =>
          rw [hm1, hm2] at ih
          have h12 : (Except.ok (List.flatten l1) : Except PyErr (List Song))
              = Except.ok (List.flatten l2) := ih
          have hfl := Except.ok.inj h12
          show (Except.ok (List.flatten (b :: l1)) : Except PyErr (List Song))
              = Except.ok (List.flatten (b :: l2))
          rw [List.flatten_cons, List.flatten_cons, hfl]

theorem bind_sort_congr {m1 m2 : Except PyErr (List (List Song))}
    (h : m1.map List.flatten = m2.map List.flatten) :
    (do let ls ← m1; Except.ok (sortDesc songKey ls.flatten))
      = (do let ls ← m2; Except.ok (sortDesc songKey ls.flatten)) := by
  cases m1 with
  | error e1 =>
    cases m2 with
    | error e2 =>
      have h12 : (Except.error e1 : Except PyErr (List Song)) = Except.error e2 := h
      cases Except.error.inj h12
      rfl
    | ok l2 =>
      have h12 : (Except.error e1 : Except PyErr (List Song))
          = Except.ok (List.flatten l2) := h
      exact Except.noConfusion h12
  | ok l1 =>
    cases m2 with
    | error e2 =>
      have h12 : Except.ok (List.flatten l1)
          = (Except.error e2 : Except PyErr (List Song)) := h
      exact Except.noConfusion h12
    | ok l2 =>
      have h12 : (Except.ok (List.flatten l1) : Except PyErr (List Song))
          = Except.ok (List.flatten l2) := h
      have hfl := Except.ok.inj h12
      show Except.ok (sortDesc songKey (List.flatten l1))
          = Except.ok (sortDesc songKey (List.flatten l2))
      rw [hfl]

/-- C3: an album whose track fetch yields `[]` (the shape a failed fetch
takes at the gateway) contributes zero tracks — removing it from the
completion order leaves the aggregation's outcome unchanged, with every
other album's kept tracks still merged and no error introduced — and on
the concrete two-album scenario (album 1 fetch `[]`, album 2 one matching
track 101) the result is exactly that one track with no error and no log
output. -/
theorem C3_empty_album_isolated :
    (∀ (artist_name : String) (search : List SearchResult) (albumResults : List RawAlbum)
        (trackResults : Int → List RawTrack) (a : RawAlbum) (cid : Int) (nm : String)
        (o1 o2 : List RawAlbum),
      a.collectionId = some cid → a.collectionName = some nm → trackResults cid = [] →
      get_all_official_songs_by_artist artist_name search albumResults trackResults
          (fun _ => o1 ++ a :: o2)
        = get_all_official_songs_by_artist artist_name search albumResults trackResults
          (fun _ => o1 ++ o2)) ∧
    get_all_official_songs_by_artist "X" exSearch [exAlbum1, exAlbum2] exTrackResults exOrder
      = (Except.ok [exSong101], []) := by
  constructor
  · intro artist_name search albumResults trackResults a cid nm o1 o2 h1 h2 h3
    simp only [get_all_official_songs_by_artist]
    by_cases hid : idTruthy (get_artist_id search) = false
    · rw [if_pos hid, if_pos hid]
    · rw [if_neg hid, if_neg hid]
      cases hgi : get_artist_id search with
      | none => rfl
      | some aid =>
        have hFa : fetch_album_tracks aid trackResults a = Except.ok [] :=
          fetch_album_tracks_empty aid trackResults a cid nm h1 h2 h3
        have hmap := mapExcept_middle_nil (F := fetch_album_tracks aid trackResults)
          hFa o2 o1
        exact congrArg (fun r => (r, ([] : List String))) (bind_sort_congr hmap)
  · rfl

/-- Witness for C3: removing the empty album 1 from the completion order
of the concrete scenario leaves the result unchanged. -/
theorem C3_witness :
    get_all_official_songs_by_artist "X" exSearch [exAlbum1, exAlbum2] exTrackResults
        (fun _ => [exAlbum2] ++ exAlbum1 :: [])
      = get_all_official_songs_by_artist "X" exSearch [exAlbum1, exAlbum2] exTrackResults
        (fun _ => [exAlbum2] ++ []) :=
  C3_empty_album_isolated.1 "X" exSearch [exAlbum1, exAlbum2] exTrackResults
    exAlbum1 1 "A" [exAlbum2] [] rfl rfl rfl

theorem fetch_album_tracks_sort_rel (artist_id : Int) (trackResults : Int → List RawTrack)
    (album : RawAlbum) :
    fetch_album_tracks artist_id trackResults album
      = (fetch_album_tracks_nosort artist_id trackResults album).map (sortDesc songKey) := by
  obtain ⟨ct, aid0, rd, cidOpt, cnOpt⟩ := album
  cases cidOpt with
  | none => rfl
  | some cid =>
    cases cnOpt with
    | none => rfl
    | some nm =>
      show (do
          let tracks ← mapExcept (normTrack nm) ((trackResults cid).filter
            (fun t => decide (t.wrapperType = some "track" ∧ t.artistId = some artist_id)))
          Except.ok (sortDesc songKey tracks))
        = ((do
          let tracks ← mapExcept (normTrack nm) ((trackResults cid).filter
            (fun t => decide (t.wrapperType = some "track" ∧ t.artistId = some artist_id)))
          Except.ok tracks : Except PyErr (List Song))).map (sortDesc songKey)
      cases hm : mapExcept (normTrack nm) ((trackResults cid).filter
          (fun t => decide (t.wrapperType = some "track" ∧ t.artistId = some artist_id))) with
      | error e => rfl
      | ok tracks => rfl

theorem mapExcept_sort_rel (artist_id : Int) (trackResults : Int → List RawTrack) :
    ∀ l : List RawAlbum,
      mapExcept (fetch_album_tracks artist_id trackResults) l
        = (mapExcept (fetch_album_tracks_nosort artist_id trackResults) l).map
            (List.map (sortDesc songKey))
  | [] => rfl
  | c :: l => by
    simp only [mapExcept]
    rw [fetch_album_tracks_sort_rel artist_id trackResults c]
    cases hc : fetch_album_tracks_nosort artist_id trackResults c with
    | error e => rfl
    | ok b =>
      rw [mapExcept_sort_rel artist_id trackResults l]
      cases hm : mapExcept (fetch_album_tracks_nosort artist_id trackResults) l with
      | error e => rfl
      | ok bs => rfl

theorem sortmerge_eq {MNS MS : Except PyErr (List (List Song))}
    (hrel : MS = MNS.map (List.map (sortDesc songKey))) :
    (do let p ← MNS; Except.ok (sortDesc songKey p.flatten))
      = (do let p ← MS; Except.ok (sortDesc songKey p.flatten)) := by
  cases MNS with
  | error e =>
    rw [hrel]
    rfl
  | ok ls =>
    rw [hrel]
    show Except.ok (sortDesc songKey ls.flatten)
        = Except.ok (sortDesc songKey (List.map (sortDesc songKey) ls).flatten)
    rw [sortDesc_flatten_map_sortDesc]

/-- C5: omitting the stage-3 per-album sort changes nothing observable —
for every input and every completion order the variant without the
intermediate sort returns exactly the implemented version's output,
including the relative order of equal release dates, because the final
sort is stable and the per-album sort never reorders tracks with equal
keys relative to each other. -/
theorem C5_per_album_sort_redundant (artist_name : String) (search : List SearchResult)
    (albumResults : List RawAlbum) (trackResults : Int → List RawTrack)
    (completionOrder : List RawAlbum → List RawAlbum) :
    get_all_official_songs_by_artist_nosort artist_name search albumResults trackResults
        completionOrder
      = get_all_official_songs_by_artist artist_name search albumResults trackResults
        completionOrder := by
  simp only [get_all_official_songs_by_artist, get_all_official_songs_by_artist_nosort]
  by_cases hid : idTruthy (get_artist_id search) = false
  · rw [if_pos hid, if_pos hid]
  · rw [if_neg hid, if_neg hid]
    cases hgi : get_artist_id search with
    | none => rfl
    | some aid =>
      have hrel := mapExcept_sort_rel aid trackResults
        (completionOrder (albumStage aid albumResults))
      exact congrArg (fun r => (r, ([] : List String))) (sortmerge_eq hrel)

/-! ### Claim C8 — unresolved artist -/

/-- C8: when the search resolves no identifier, the aggregator returns an
empty list plus the log line naming the artist, the envelope is exactly
`{artist, total_songs: 0, albums: {}, sample_thumbnails: []}` with no
`total_albums` key, while any run producing a non-empty song list yields
an envelope that does contain `total_albums`. -/
theorem C8_not_found_envelope
    (sampleSongs : List Song → Nat → List Song) (artist_name : String)
    (search : List SearchResult) (albumResults : List RawAlbum)
    (trackResults : Int → List RawTrack)
    (completionOrder : List RawAlbum → List RawAlbum)
    (h : get_artist_id search = none) :
    get_all_official_songs_by_artist artist_name search albumResults trackResults
        completionOrder = (Except.ok [], [notFoundLine artist_name]) ∧
    get_artist_songs_with_sample_thumbnails sampleSongs artist_name search albumResults
        trackResults completionOrder
      = (Except.ok [("artist", EnvVal.str artist_name), ("total_songs", EnvVal.int 0),
                    ("albums", EnvVal.albumsMap []),
                    ("sample_thumbnails", EnvVal.strList [])],
         [notFoundLine artist_name]) ∧
    "total_albums" ∉
      (["artist", "total_songs", "albums", "sample_thumbnails"] : List String) ∧
    (∀ (name2 : String) (search2 : List SearchResult) (albumResults2 : List RawAlbum)
        (trackResults2 : Int → List RawTrack)
        (completionOrder2 : List RawAlbum → List RawAlbum) (songs : List Song),
      (get_all_official_songs_by_artist name2 search2 albumResults2 trackResults2
          completionOrder2).1 = Except.ok songs → songs ≠ [] →
      ∃ env2,
        (get_artist_songs_with_sample_thumbnails sampleSongs name2 search2 albumResults2
            trackResults2 completionOrder2).1 = Except.ok env2 ∧
        "total_albums" ∈ env2.map Prod.fst) := by
  have hagg : get_all_official_songs_by_artist artist_name search albumResults trackResults
      completionOrder = (Except.ok [], [notFoundLine artist_name]) := by
    simp [get_all_official_songs_by_artist, h, idTruthy]
  refine ⟨hagg, ?_, by decide, ?_⟩
  · simp [get_artist_songs_with_sample_thumbnails, hagg]
  · intro name2 search2 albumResults2 trackResults2 completionOrder2 songs h1 hne
    cases songs with
    | nil => exact absurd rfl hne
    | cons s rest =>
      refine ⟨[("artist", EnvVal.str name2),
               ("total_songs", EnvVal.int ((s :: rest).length : Int)),
               ("total_albums", EnvVal.int ((groupByAlbum (s :: rest)).length : Int)),
               ("albums", EnvVal.albumsMap (groupByAlbum (s :: rest))),
               ("sample_thumbnails", EnvVal.strList
                 (if 3 ≤ (s :: rest).length then
                    List.map (fun t => t.thumbnail) (sampleSongs (s :: rest) 3)
                  else List.map (fun t => t.thumbnail) (s :: rest)))], ?_, by simp⟩
      simp only [get_artist_songs_with_sample_thumbnails]
      rw [h1]
      rfl

/-- Witness for C8: the empty search payload, plus a run on the concrete
two-album scenario for the non-empty contrast clause. -/
theorem C8_witness :
    get_all_official_songs_by_artist "X" [] [exAlbum1, exAlbum2] exTrackResults exOrder
      = (Except.ok [], [notFoundLine "X"]) ∧
    (∃ env2,
      (get_artist_songs_with_sample_thumbnails (fun l _ => l) "X" exSearch
          [exAlbum1, exAlbum2] exTrackResults exOrder).1 = Except.ok env2 ∧
      "total_albums" ∈ env2.map Prod.fst) :=
  ⟨(C8_not_found_envelope (fun l _ => l) "X" [] [exAlbum1, exAlbum2] exTrackResults exOrder
      rfl).1,
   (C8_not_found_envelope (fun l _ => l) "Y" [] [] (fun _ => []) exOrder rfl).2.2.2
     "X" exSearch [exAlbum1, exAlbum2] exTrackResults exOrder [exSong101] rfl
     (by simp)⟩

/-! ### Claim C9 — `get_top_global_artists` -/

/-- Modelled from the spec: the sequence of artist names obtained by
walking the feed entries in order, skipping falsy names and names already
seen — first-occurrence deduplication. -/
def dedupNamesFirst (seen : List String) : List ArtistEntry → List String
  | [] => []
  | e :: es =>
    let name := e.artistName.getD ""
    if optStrFalsy e.artistName || decide (name ∈ seen) then dedupNamesFirst seen es
    else name :: dedupNamesFirst (name :: seen) es

theorem topArtistsLoop_length (limit : Int) :
    ∀ (es : List ArtistEntry) (seen : List String) (count : Nat),
      (count : Int) < limit →
      ((topArtistsLoop limit seen count es).length : Int) + (count : Int) ≤ limit
  | [], seen, count, h => by
    simp only [topArtistsLoop, List.length_nil, Int.natCast_zero]
    omega
  | e :: es, seen, count, h => by
    simp only [topArtistsLoop]
    cases hskip : (optStrFalsy e.artistName || decide ((e.artistName.getD "") ∈ seen)) with
    | true =>
      rw [if_pos rfl]
      exact topArtistsLoop_length limit es seen count h
    | false =>
      rw [if_neg Bool.false_ne_true]
      by_cases hbr : limit ≤ ((count : Int) + 1)
      · rw [if_pos hbr]
        simp only [List.length_singleton]
        omega
      · rw [if_neg hbr]
        simp only [List.length_cons]
        have ih := topArtistsLoop_length limit es ((e.artistName.getD "") :: seen) (count + 1)
          (by push_cast; omega)
        push_cast at ih ⊢
        omega

theorem topArtistsLoop_rank (limit : Int) :
    ∀ (es : List ArtistEntry) (seen : List String) (count : Nat) (i : Nat) (a : ChartArtist),
      (topArtistsLoop limit seen count es).get? i = some a → a.rank = count + i + 1
  | [], seen, count, i, a, h => by simp [topArtistsLoop] at h
  | e :: es, seen, count, i, a, h => by
    simp only [topArtistsLoop] at h
    by_cases hskip :
        (optStrFalsy e.artistName || decide ((e.artistName.getD "") ∈ seen)) = true
    · rw [if_pos hskip] at h
      exact topArtistsLoop_rank limit es seen count i a h
    · rw [if_neg hskip] at h
      by_cases hbr : limit ≤ ((count : Int) + 1)
      · rw [if_pos hbr] at h
        cases i with
        | zero =>
          simp only [List.get?] at h
          cases h
          rfl
        | succ j => simp [List.get?] at h
      · rw [if_neg hbr] at h
        cases i with
        | zero =>
          simp only [List.get?] at h
          cases h
          rfl
        | succ j =>
          simp only [List.get?] at h
          have := topArtistsLoop_rank limit es ((e.artistName.getD "") :: seen) (count + 1) j a h
          omega

theorem topArtistsLoop_not_seen (limit : Int) :
    ∀ (es : List ArtistEntry) (seen : List String) (count : Nat) (a : ChartArtist),
      a ∈ topArtistsLoop limit seen count es → a.artist_name ∉ seen
  | [], seen, count, a, h => by simp [topArtistsLoop] at h
  | e :: es, seen, count, a, h => by
    simp only [topArtistsLoop] at h
    by_cases hskip :
        (optStrFalsy e.artistName || decide ((e.artistName.getD "") ∈ seen)) = true
    · rw [if_pos hskip] at h
      exact topArtistsLoop_not_seen limit es seen count a h
    · have hnotin : (e.artistName.getD "") ∉ seen := by
        rcases Bool.or_eq_false_iff.mp (Bool.eq_false_iff.mpr hskip) with ⟨_, h2⟩
        exact of_decide_eq_false h2
      rw [if_neg hskip] at h
      by_cases hbr : limit ≤ ((count : Int) + 1)
      · rw [if_pos hbr] at h
        rcases List.mem_singleton.mp h with rfl
        exact hnotin
      · rw [if_neg hbr] at h
        rcases List.mem_cons.mp h with rfl | h
        · exact hnotin
        · have := topArtistsLoop_not_seen limit es ((e.artistName.getD "") :: seen)
            (count + 1) a h
          intro hmem
          exact this (List.mem_cons_of_mem _ hmem)

theorem topArtistsLoop_nodup (limit : Int) :
    ∀ (es : List ArtistEntry) (seen : List String) (count : Nat),
      (topArtistsLoop limit seen count es).Pairwise
        (fun a b => a.artist_name ≠ b.artist_name)
  | [], seen, count => by simp [topArtistsLoop]
  | e :: es, seen, count => by
    simp only [topArtistsLoop]
    by_cases hskip :
        (optStrFalsy e.artistName || decide ((e.artistName.getD "") ∈ seen)) = true
    · rw [if_pos hskip]
      exact topArtistsLoop_nodup limit es seen count
    · rw [if_neg hskip]
      by_cases hbr : limit ≤ ((count : Int) + 1)
      · rw [if_pos hbr]
        simp
      · rw [if_neg hbr]
        refine List.pairwise_cons.mpr ⟨?_, topArtistsLoop_nodup limit es _ (count + 1)⟩
        intro b hb
        have := topArtistsLoop_not_seen limit es ((e.artistName.getD "") :: seen)
          (count + 1) b hb
        intro heq
        exact this (by rw [← heq]; exact List.mem_cons_self _ _)

theorem topArtistsLoop_names (limit : Int) :
    ∀ (es : List ArtistEntry) (seen : List String) (count : Nat),
      (count : Int) < limit →
      (topArtistsLoop limit seen count es).map (fun a => a.artist_name)
        = (dedupNamesFirst seen es).take (limit - (count : Int)).toNat
  | [], seen, count, h => by simp [topArtistsLoop, dedupNamesFirst]
  | e :: es, seen, count, h => by
    simp only [topArtistsLoop, dedupNamesFirst]
    cases hskip : (optStrFalsy e.artistName || decide ((e.artistName.getD "") ∈ seen)) with
    | true =>
      rw [if_pos rfl, if_pos rfl]
      exact topArtistsLoop_names limit es seen count h
    | false =>
      rw [if_neg Bool.false_ne_true, if_neg Bool.false_ne_true]
      by_cases hbr : limit ≤ ((count : Int) + 1)
      · have h1 : (limit - (count : Int)).toNat = 1 := by omega
        rw [if_pos hbr, h1]
        simp
      · have h1 : (limit - (count : Int)).toNat = (limit - ((count : Int) + 1)).toNat + 1 := by
          omega
        rw [if_neg hbr, h1, List.map_cons, List.take_succ_cons]
        have ih := topArtistsLoop_names limit es ((e.artistName.getD "") :: seen) (count + 1)
          (by push_cast; omega)
        push_cast at ih
        rw [ih]

/-- C9 counterexample: with `limit = 0` the break check (which runs only
after appending) never fires before the first append, so a feed with one
kept entry returns one record — more than the requested limit. -/
theorem C9_limit_zero_counterexample :
    get_top_global_artists [{ artistName := some "A", images := [] }] 0
      = [{ rank := 1, artist_name := "A", thumbnail := none }] ∧
    ¬ ((get_top_global_artists [{ artistName := some "A", images := [] }] 0).length ≤ 0) :=
  ⟨rfl, by decide⟩

/-- C9 (amended): the feed URL is a fixed limit-200 literal independent of
the requested limit; for every requested `limit ≥ 1` at most `limit`
entries are returned (for `limit ≤ 0` the post-append break still lets one
entry through); no two returned entries share an artist name; the returned
names are the first-occurrence deduplication of the feed names truncated
at `limit`; and each entry's rank is its 1-based output position. -/
theorem C9_artists_chart :
    (∀ limit : Int, topGlobalArtistsUrl limit = topGlobalArtistsUrl 200) ∧
    (∀ (entries : List ArtistEntry) (limit : Int), 1 ≤ limit →
      ((get_top_global_artists entries limit).length : Int) ≤ limit) ∧
    (∀ (entries : List ArtistEntry) (limit : Int),
      (get_top_global_artists entries limit).Pairwise
        (fun a b => a.artist_name ≠ b.artist_name)) ∧
    (∀ (entries : List ArtistEntry) (limit : Int) (i : Nat) (a : ChartArtist),
      (get_top_global_artists entries limit).get? i = some a → a.rank = i + 1) ∧
    (∀ (entries : List ArtistEntry) (limit : Int), 1 ≤ limit →
      (get_top_global_artists entries limit).map (fun a => a.artist_name)
        = (dedupNamesFirst [] entries).take limit.toNat) := by
  refine ⟨fun _ => rfl, ?_, ?_, ?_, ?_⟩
  · intro entries limit h
    have := topArtistsLoop_length limit entries [] 0 (by omega)
    simpa [get_top_global_artists] using this
  · intro entries limit
    exact topArtistsLoop_nodup limit entries [] 0
  · intro entries limit i a h
    have := topArtistsLoop_rank limit entries [] 0 i a h
    omega
  · intro entries limit h
    have := topArtistsLoop_names limit entries [] 0 (by omega)
    simpa [get_top_global_artists] using this

/-- Witness for C9 on concrete feeds and limits. -/
theorem C9_witness :
    ((get_top_global_artists [{ artistName := some "A", images := [] }] 1).length : Int) ≤ 1 ∧
    ({ rank := 1, artist_name := "A", thumbnail := none } : ChartArtist).rank = 0 + 1 ∧
    (get_top_global_artists
        [{ artistName := some "A", images := [] }, { artistName := some "A", images := [] }]
        5).map (fun a => a.artist_name)
      = (dedupNamesFirst []
          [{ artistName := some "A", images := [] },
           { artistName := some "A", images := [] }]).take ((5 : Int)).toNat :=
  ⟨C9_artists_chart.2.1 [{ artistName := some "A", images := [] }] 1 (by decide),
   C9_artists_chart.2.2.2.1 [{ artistName := some "A", images := [] }] 5 0
     { rank := 1, artist_name := "A", thumbnail := none } rfl,
   C9_artists_chart.2.2.2.2
     [{ artistName := some "A", images := [] }, { artistName := some "A", images := [] }]
     5 (by decide)⟩

end HanyaMusic
